import Mathlib

/-!
Shallow embedding of `src/reflector_optimizer.py` (multi-layer reflector
mass optimizer) over exact rational arithmetic, together with theorems
settling the specification claims about it.

A candidate coating layer is a pair `(reflectivity, areal_mass)`.
-/

namespace ReflectorOptimizer

abbrev Candidate := ℚ × ℚ

/-- Embedding of `combined_reflectivity`: non-coherent multi-layer model,
`R_total = 1 - Π(1 - r_i)`, with the source's explicit empty-input branch. -/
def combined_reflectivity (layer_reflectivities : List ℚ) : ℚ :=
  if layer_reflectivities = [] then 0
  else 1 - ((layer_reflectivities.map (fun r => 1 - r)).prod)

/-- Embedding of class `PowerOption` (only the field the optimizers read). -/
structure PowerOption where
  mass_reduction : ℚ
deriving DecidableEq

/-- Embedding of `PowerOption.optimize_mass`. -/
def PowerOption.optimize_mass (p : PowerOption) (base_mass_kg_m2 : ℚ) : ℚ :=
  base_mass_kg_m2 * (1 - p.mass_reduction)

/-- The optimizers' use of an optional power option:
`if power_opt: total_mass = power_opt.optimize_mass(total_mass)`. -/
def applyPower (power_opt : Option PowerOption) (m : ℚ) : ℚ :=
  match power_opt with
  | none => m
  | some p => p.optimize_mass m

/-- The solution dictionary returned by both optimizers (the fields the
search computes; the power/telemetry metadata fields are search-independent
and omitted). `none` at the optimizer level models Python's `None`
(infeasible). -/
structure Solution where
  total_areal_mass_kg_m2 : ℚ
  achieved_reflectivity : ℚ
  layers_used : ℕ
  selected_layers : List Candidate
deriving DecidableEq

/-- Subset sizes enumerated by the brute-force loop:
`range(1, (n+1) if max_layers is None else min(max_layers+1, n+1))`,
i.e. sizes `1 .. n` without a cap and `1 .. min(max_layers, n)` with one. -/
def bruteSizeBound (n : ℕ) (max_layers : Option ℕ) : ℕ :=
  match max_layers with
  | none => n
  | some k => min k n

/-- All candidate subsets the brute-force search visits, as sublists of the
candidate list (a subset of indices in increasing order is exactly a
sublist). -/
def bruteSubsets (candidates : List Candidate) (max_layers : Option ℕ) :
    List (List Candidate) :=
  (List.range (bruteSizeBound candidates.length max_layers)).flatMap
    (fun s => candidates.sublistsLen (s + 1))

/-- Combined reflectivity of a subset, as the brute-force body computes it. -/
def subR (subset : List Candidate) : ℚ :=
  combined_reflectivity (subset.map Prod.fst)

/-- Total areal mass of a subset after the optional power discount, as the
brute-force body computes it. -/
def subMass (power_opt : Option PowerOption) (subset : List Candidate) : ℚ :=
  applyPower power_opt (subset.map Prod.snd).sum

/-- The solution record the brute-force body builds for a subset. -/
def mkSol (power_opt : Option PowerOption) (subset : List Candidate) : Solution :=
  { total_areal_mass_kg_m2 := subMass power_opt subset
    achieved_reflectivity := subR subset
    layers_used := subset.length
    selected_layers := subset }

/-- `total_mass < best_mass`, where `best_mass` starts at `np.inf`. -/
def beatsBest (best : Option Solution) (m : ℚ) : Bool :=
  match best with
  | none => true
  | some s => decide (m < s.total_areal_mass_kg_m2)

/-- One iteration of the brute-force inner loop:
`if R >= R_target and total_mass < best_mass: update best`. -/
def bruteUpdate (R_target : ℚ) (power_opt : Option PowerOption)
    (best : Option Solution) (subset : List Candidate) : Option Solution :=
  if R_target ≤ subR subset ∧ beatsBest best (subMass power_opt subset) then
    some (mkSol power_opt subset)
  else best

/-- Embedding of `optimize_reflector_bruteforce` (exact combinatorial
optimizer). -/
def optimize_reflector_bruteforce (R_target : ℚ) (candidates : List Candidate)
    (max_layers : Option ℕ) (power_opt : Option PowerOption) : Option Solution :=
  (bruteSubsets candidates max_layers).foldl (bruteUpdate R_target power_opt) none

/-- Sort key of the greedy pre-sort:
`x[0]/x[1] if x[1] > 0 else np.inf`. -/
def greedyKey (c : Candidate) : WithTop ℚ :=
  if 0 < c.2 then ((c.1 / c.2 : ℚ) : WithTop ℚ) else ⊤

/-- Python's `sorted(candidates, key=greedyKey, reverse=True)`: a stable
descending sort (insertion sort with the reflexive total "key not below"
relation is stable and descending). -/
def greedySorted (candidates : List Candidate) : List Candidate :=
  List.insertionSort (fun a b => greedyKey b ≤ greedyKey a) candidates

/-- Marginal ratio of a candidate against the current selection:
`ratio = delta_R / m if m > 0 else 0`. -/
def ratioOf (selected : List Candidate) (current_R : ℚ) (c : Candidate) : ℚ :=
  let trial_R := combined_reflectivity (c.1 :: selected.map Prod.fst)
  let delta_R := trial_R - current_R
  if 0 < c.2 then delta_R / c.2 else 0

/-- The greedy inner argmax loop: scan the remaining candidates, keep the
first index whose ratio strictly beats the best so far (initially `-1`).
Returns `none` when `best_idx` stays `-1`. -/
def findBest (selected : List Candidate) (current_R : ℚ)
    (remaining : List Candidate) : Option (ℕ × Candidate) :=
  (remaining.enum.foldl
    (fun acc ic =>
      if acc.1 < ratioOf selected current_R ic.2 then (ratioOf selected current_R ic.2, some ic)
      else acc)
    ((-1 : ℚ), none)).2

/-- The greedy `while current_R < R_target and candidates:` loop.  Each
iteration pops one candidate, so `fuel = length of the remaining list`
upper-bounds the iteration count; the fuel-exhausted branch is never
reached from the entry point. Returns `(selected, current_R, current_mass)`. -/
def greedyLoop (R_target : ℚ) :
    ℕ → List Candidate → List Candidate → ℚ → ℚ → List Candidate × ℚ × ℚ
  | 0, _, selected, current_R, current_mass => (selected, current_R, current_mass)
  | fuel + 1, remaining, selected, current_R, current_mass =>
    if current_R < R_target ∧ remaining ≠ [] then
      match findBest selected current_R remaining with
      | none => (selected, current_R, current_mass)
      | some (i, c) =>
        greedyLoop R_target fuel (remaining.eraseIdx i) (selected ++ [c])
          (combined_reflectivity ((selected ++ [c]).map Prod.fst))
          (current_mass + c.2)
    else (selected, current_R, current_mass)

/-- Embedding of `optimize_reflector_greedy` (fast greedy heuristic). -/
def optimize_reflector_greedy (R_target : ℚ) (candidates : List Candidate)
    (power_opt : Option PowerOption) : Option Solution :=
  let cs := greedySorted candidates
  let out := greedyLoop R_target cs.length cs [] 0 0
  if R_target ≤ out.2.1 then
    some { total_areal_mass_kg_m2 := applyPower power_opt out.2.2
           achieved_reflectivity := out.2.1
           layers_used := out.1.length
           selected_layers := out.1 }
  else none

/-- Rescaling only the reported mass of a solution by the power factor
`1 - f`; used to express that a power option changes a returned Solution in
no other way. -/
def scaleSol (f : ℚ) (s : Solution) : Solution :=
  { s with total_areal_mass_kg_m2 := s.total_areal_mass_kg_m2 * (1 - f) }

/-! ### Basic lemmas about `combined_reflectivity` -/

theorem combined_eq (l : List ℚ) :
    combined_reflectivity l = 1 - (l.map (fun r => 1 - r)).prod := by
  cases l with
  | nil => simp [combined_reflectivity]
  | cons a l => simp [combined_reflectivity]

theorem prod_le_one_of_mem (l : List ℚ) (h : ∀ x ∈ l, 0 ≤ x ∧ x ≤ 1) :
    l.prod ≤ 1 := by
  induction l with
  | nil => simp
  | cons a l ih =>
    have ha := h a (List.mem_cons_self a l)
    have hl : ∀ x ∈ l, 0 ≤ x ∧ x ≤ 1 := fun x hx => h x (List.mem_cons_of_mem a hx)
    have h0 : (0:ℚ) ≤ l.prod := List.prod_nonneg (fun x hx => (hl x hx).1)
    calc (a :: l).prod = a * l.prod := List.prod_cons
      _ ≤ 1 * 1 := by
          exact mul_le_mul ha.2 (ih hl) h0 zero_le_one
      _ = 1 := one_mul 1

theorem factors_mem_bounds (l : List ℚ) (h : ∀ x ∈ l, 0 ≤ x ∧ x ≤ 1) :
    ∀ y ∈ l.map (fun r => 1 - r), 0 ≤ y ∧ y ≤ 1 := by
  intro y hy
  obtain ⟨x, hx, rfl⟩ := List.mem_map.1 hy
  obtain ⟨h0, h1⟩ := h x hx
  constructor
  · linarith
  · linarith

theorem combined_nonneg (l : List ℚ) (h : ∀ x ∈ l, 0 ≤ x ∧ x ≤ 1) :
    0 ≤ combined_reflectivity l := by
  rw [combined_eq]
  have := prod_le_one_of_mem _ (factors_mem_bounds l h)
  linarith

theorem combined_lt_one (l : List ℚ) (h : ∀ x ∈ l, x < 1) :
    combined_reflectivity l < 1 := by
  rw [combined_eq]
  have hpos : 0 < (l.map (fun r => 1 - r)).prod := by
    apply List.prod_pos
    intro y hy
    obtain ⟨x, hx, rfl⟩ := List.mem_map.1 hy
    have := h x hx
    linarith
  linarith

/-- Removing layers never increases the product complement: if `l₁` is a
sublist of `l₂` and all factors lie in `[0,1]`, the full product is below the
sublist's product. -/
theorem prod_sublist_ge (l₁ l₂ : List ℚ) (h : List.Sublist l₁ l₂)
    (hb : ∀ x ∈ l₂, 0 ≤ x ∧ x ≤ 1) : l₂.prod ≤ l₁.prod := by
  induction h with
  | slnil => exact le_refl _
  | cons a h ih =>
    rename_i s t
    have ha := hb a (List.mem_cons_self a t)
    have hb' : ∀ x ∈ t, 0 ≤ x ∧ x ≤ 1 := fun x hx => hb x (List.mem_cons_of_mem a hx)
    have h0 : (0:ℚ) ≤ t.prod := List.prod_nonneg (fun x hx => (hb' x hx).1)
    calc (a :: t).prod = a * t.prod := List.prod_cons
      _ ≤ t.prod := mul_le_of_le_one_left h0 ha.2
      _ ≤ s.prod := ih hb'
  | cons₂ a h ih =>
    rename_i s t
    have ha := hb a (List.mem_cons_self a t)
    have hb' : ∀ x ∈ t, 0 ≤ x ∧ x ≤ 1 := fun x hx => hb x (List.mem_cons_of_mem a hx)
    calc (a :: t).prod = a * t.prod := List.prod_cons
      _ ≤ a * s.prod := mul_le_mul_of_nonneg_left (ih hb') ha.1
      _ = (a :: s).prod := List.prod_cons.symm

/-- Combined reflectivity is monotone under passing to superlists, for
reflectivities in `[0,1]`. -/
theorem combined_sublist_mono (l₁ l₂ : List ℚ) (h : List.Sublist l₁ l₂)
    (hb : ∀ x ∈ l₂, 0 ≤ x ∧ x ≤ 1) :
    combined_reflectivity l₁ ≤ combined_reflectivity l₂ := by
  rw [combined_eq, combined_eq]
  have := prod_sublist_ge _ _ (h.map (fun r => 1 - r)) (factors_mem_bounds l₂ hb)
  linarith

theorem combined_perm (l₁ l₂ : List ℚ) (h : List.Perm l₁ l₂) :
    combined_reflectivity l₁ = combined_reflectivity l₂ := by
  rw [combined_eq, combined_eq, (h.map (fun r => 1 - r)).prod_eq]

/-! ### The brute-force fold: soundness, completeness and minimality -/

theorem bruteUpdate_eq_none_iff (t : ℚ) (p : Option PowerOption)
    (best : Option Solution) (sub : List Candidate) :
    bruteUpdate t p best sub = none ↔ best = none ∧ subR sub < t := by
  unfold bruteUpdate
  split_ifs with hc
  · simp only [Option.some_ne_none, false_iff]
    intro hand
    rcases hand with ⟨hb, hlt⟩
    subst hb
    exact absurd hc.1 (not_le.2 hlt)
  · constructor
    · intro hb
      refine ⟨hb, ?_⟩
      subst hb
      simp only [beatsBest, and_true] at hc
      exact not_le.1 hc
    · exact fun h => h.1

theorem bruteFold_none_iff (t : ℚ) (p : Option PowerOption) :
    ∀ (L : List (List Candidate)) (best : Option Solution),
    L.foldl (bruteUpdate t p) best = none ↔
      best = none ∧ ∀ sub ∈ L, subR sub < t := by
  intro L
  induction L with
  | nil => intro best; simp
  | cons a L ih =>
    intro best
    rw [List.foldl_cons, ih, bruteUpdate_eq_none_iff]
    constructor
    · rintro ⟨⟨hb, ha⟩, hall⟩
      exact ⟨hb, fun sub hsub => by
        rcases List.mem_cons.1 hsub with h | h
        · exact h ▸ ha
        · exact hall sub h⟩
    · rintro ⟨hb, hall⟩
      exact ⟨⟨hb, hall a (List.mem_cons_self a L)⟩,
        fun sub hsub => hall sub (List.mem_cons_of_mem a hsub)⟩

/-- The tracked best mass only decreases as the fold proceeds. -/
theorem bruteFold_mass_mono (t : ℚ) (p : Option PowerOption) :
    ∀ (L : List (List Candidate)) (best : Option Solution) (b s : Solution),
    L.foldl (bruteUpdate t p) best = some s → best = some b →
    s.total_areal_mass_kg_m2 ≤ b.total_areal_mass_kg_m2 := by
  intro L
  induction L with
  | nil =>
    intro best b s hf hb
    rw [List.foldl_nil] at hf
    rw [hb] at hf
    cases hf
    exact le_refl _
  | cons a L ih =>
    intro best b s hf hb
    rw [List.foldl_cons] at hf
    by_cases hc : t ≤ subR a ∧ beatsBest best (subMass p a)
    · have hup : bruteUpdate t p best a = some (mkSol p a) := if_pos hc
      rw [hup] at hf
      have h1 : s.total_areal_mass_kg_m2 ≤ (mkSol p a).total_areal_mass_kg_m2 :=
        ih _ _ _ hf rfl
      have h2 : subMass p a < b.total_areal_mass_kg_m2 := by
        have := hc.2
        rw [hb] at this
        simpa [beatsBest] using this
      exact le_trans h1 (le_of_lt h2)
    · have hup : bruteUpdate t p best a = best := if_neg hc
      rw [hup] at hf
      exact ih _ _ _ hf hb

/-- Any solution produced by the fold is the record of some enumerated
feasible subset (unless it was already the initial accumulator). -/
theorem bruteFold_some_spec (t : ℚ) (p : Option PowerOption) :
    ∀ (L : List (List Candidate)) (best : Option Solution) (s : Solution),
    L.foldl (bruteUpdate t p) best = some s →
    best = some s ∨ ∃ sub ∈ L, t ≤ subR sub ∧ s = mkSol p sub := by
  intro L
  induction L with
  | nil =>
    intro best s hf
    rw [List.foldl_nil] at hf
    exact Or.inl hf
  | cons a L ih =>
    intro best s hf
    rw [List.foldl_cons] at hf
    by_cases hc : t ≤ subR a ∧ beatsBest best (subMass p a)
    · have hup : bruteUpdate t p best a = some (mkSol p a) := if_pos hc
      rw [hup] at hf
      rcases ih _ _ hf with h | ⟨sub, hsub, hfeas, hs⟩
      · exact Or.inr ⟨a, List.mem_cons_self a L, hc.1, (Option.some_inj.1 h).symm⟩
      · exact Or.inr ⟨sub, List.mem_cons_of_mem a hsub, hfeas, hs⟩
    · have hup : bruteUpdate t p best a = best := if_neg hc
      rw [hup] at hf
      rcases ih _ _ hf with h | ⟨sub, hsub, hfeas, hs⟩
      · exact Or.inl h
      · exact Or.inr ⟨sub, List.mem_cons_of_mem a hsub, hfeas, hs⟩

/-- Minimality: a solution produced by the fold has mass no larger than any
enumerated feasible subset's (discounted) mass. -/
theorem bruteFold_min (t : ℚ) (p : Option PowerOption) :
    ∀ (L : List (List Candidate)) (best : Option Solution) (s : Solution),
    L.foldl (bruteUpdate t p) best = some s →
    ∀ sub ∈ L, t ≤ subR sub → s.total_areal_mass_kg_m2 ≤ subMass p sub := by
  intro L
  induction L with
  | nil => intro best s _ sub hsub; exact absurd hsub (List.not_mem_nil sub)
  | cons a L ih =>
    intro best s hf sub hsub hfeas
    rw [List.foldl_cons] at hf
    rcases List.mem_cons.1 hsub with rfl | hmem
    · by_cases hc : t ≤ subR sub ∧ beatsBest best (subMass p sub)
      · have hup : bruteUpdate t p best sub = some (mkSol p sub) := if_pos hc
        rw [hup] at hf
        have := bruteFold_mass_mono t p L _ _ _ hf rfl
        simpa [mkSol] using this
      · have hbeats : beatsBest best (subMass p sub) = false := by
          rcases Bool.eq_false_or_eq_true (beatsBest best (subMass p sub)) with h | h
          · exact absurd ⟨hfeas, h⟩ hc
          · exact h
        obtain ⟨b, hb⟩ : ∃ b, best = some b := by
          cases best with
          | none => simp [beatsBest] at hbeats
          | some b => exact ⟨b, rfl⟩
        have hble : b.total_areal_mass_kg_m2 ≤ subMass p sub := by
          rw [hb] at hbeats
          simpa [beatsBest] using hbeats
        have hup : bruteUpdate t p best sub = best := if_neg hc
        rw [hup, hb] at hf
        exact le_trans (bruteFold_mass_mono t p L _ _ _ hf rfl) hble
    · exact ih _ _ hf sub hmem hfeas

/-- Membership in the brute-force enumeration: exactly the nonempty sublists
whose length respects the size bound. -/
theorem mem_bruteSubsets (cands : List Candidate) (ml : Option ℕ)
    (sub : List Candidate) :
    sub ∈ bruteSubsets cands ml ↔
      List.Sublist sub cands ∧ sub ≠ [] ∧
        sub.length ≤ bruteSizeBound cands.length ml := by
  unfold bruteSubsets
  rw [List.mem_flatMap]
  constructor
  · rintro ⟨sz, hsz, hmem⟩
    rw [List.mem_sublistsLen] at hmem
    rw [List.mem_range] at hsz
    refine ⟨hmem.1, ?_, ?_⟩
    · intro hnil
      rw [hnil] at hmem
      simp at hmem
    · omega
  · rintro ⟨hsl, hne, hlen⟩
    have hpos : 1 ≤ sub.length := by
      cases sub with
      | nil => exact absurd rfl hne
      | cons a l => simp
    refine ⟨sub.length - 1, ?_, ?_⟩
    · rw [List.mem_range]; omega
    · rw [List.mem_sublistsLen]
      exact ⟨hsl, by omega⟩

theorem bruteforce_none_iff (t : ℚ) (cands : List Candidate) (ml : Option ℕ)
    (p : Option PowerOption) :
    optimize_reflector_bruteforce t cands ml p = none ↔
      ∀ sub ∈ bruteSubsets cands ml, subR sub < t := by
  unfold optimize_reflector_bruteforce
  rw [bruteFold_none_iff]
  simp

theorem bruteforce_some_spec (t : ℚ) (cands : List Candidate) (ml : Option ℕ)
    (p : Option PowerOption) (s : Solution)
    (h : optimize_reflector_bruteforce t cands ml p = some s) :
    ∃ sub ∈ bruteSubsets cands ml, t ≤ subR sub ∧ s = mkSol p sub := by
  rcases bruteFold_some_spec t p _ _ _ h with hcontra | hgood
  · exact absurd hcontra (by simp)
  · exact hgood

theorem bruteforce_min (t : ℚ) (cands : List Candidate) (ml : Option ℕ)
    (p : Option PowerOption) (s : Solution)
    (h : optimize_reflector_bruteforce t cands ml p = some s) :
    ∀ sub ∈ bruteSubsets cands ml, t ≤ subR sub →
      s.total_areal_mass_kg_m2 ≤ subMass p sub :=
  bruteFold_min t p _ _ _ h

/-! ### The greedy loop: selection invariants -/

theorem combined_nil : combined_reflectivity [] = 0 := by
  simp [combined_reflectivity]

/-- Generic invariant for the argmax fold: any property of every scanned
element, true of the initial accumulator's payload, holds of the result. -/
theorem foldl_argmax_invariant {β : Type} (g : β → ℚ) (P : β → Prop) :
    ∀ (L : List β) (acc : ℚ × Option β),
    (∀ x, acc.2 = some x → P x) → (∀ x ∈ L, P x) →
    ∀ x, (L.foldl (fun a b => if a.1 < g b then (g b, some b) else a) acc).2 = some x →
      P x := by
  intro L
  induction L with
  | nil => intro acc hacc _ x hx; exact hacc x hx
  | cons b L ih =>
    intro acc hacc hall x hx
    rw [List.foldl_cons] at hx
    refine ih _ ?_ (fun y hy => hall y (List.mem_cons_of_mem b hy)) x hx
    intro y hy
    by_cases hc : acc.1 < g b
    · rw [if_pos hc] at hy
      cases hy
      exact hall b (List.mem_cons_self b L)
    · rw [if_neg hc] at hy
      exact hacc y hy

/-- `findBest` only ever reports an index-candidate pair of the scanned
remaining list. -/
theorem findBest_mem (selected : List Candidate) (current_R : ℚ)
    (remaining : List Candidate) (i : ℕ) (c : Candidate)
    (h : findBest selected current_R remaining = some (i, c)) :
    remaining[i]? = some c := by
  have := foldl_argmax_invariant
    (fun ic : ℕ × Candidate => ratioOf selected current_R ic.2)
    (fun ic : ℕ × Candidate => remaining[ic.1]? = some ic.2)
    remaining.enum ((-1 : ℚ), none)
    (by intro x hx; cases hx)
    (by
      intro x hx
      exact List.mem_enum_iff_getElem?.1 hx)
    (i, c) h
  exact this

theorem cons_eraseIdx_perm {α : Type} :
    ∀ (l : List α) (i : ℕ) (c : α), l[i]? = some c →
      List.Perm (c :: l.eraseIdx i) l
  | [], i, c, h => by simp at h
  | a :: l, 0, c, h => by
    simp only [List.getElem?_cons_zero, Option.some_inj] at h
    subst h
    simp [List.eraseIdx]
  | a :: l, i + 1, c, h => by
    simp only [List.getElem?_cons_succ] at h
    have ih := cons_eraseIdx_perm l i c h
    rw [List.eraseIdx_cons_succ]
    exact List.Perm.trans (List.Perm.swap a c (l.eraseIdx i)) (List.Perm.cons a ih)

/-- The greedy while-loop invariant: the selection stays a permutation-part
of the initial `selected ++ remaining` pool, the returned reflectivity is
the combined reflectivity of the returned selection, and the returned mass
is the sum of the selection's areal masses. -/
theorem greedyLoop_spec (t : ℚ) :
    ∀ (fuel : ℕ) (rem sel : List Candidate) (m : ℚ),
    m = (sel.map Prod.snd).sum →
    ∀ out : List Candidate × ℚ × ℚ,
    greedyLoop t fuel rem sel (combined_reflectivity (sel.map Prod.fst)) m = out →
    (∃ rest, List.Perm (out.1 ++ rest) (sel ++ rem)) ∧
    out.2.1 = combined_reflectivity (out.1.map Prod.fst) ∧
    out.2.2 = (out.1.map Prod.snd).sum := by
  intro fuel
  induction fuel with
  | zero =>
    intro rem sel m hm out hout
    simp only [greedyLoop] at hout
    subst hout
    exact ⟨⟨rem, List.Perm.refl _⟩, rfl, hm⟩
  | succ fuel ih =>
    intro rem sel m hm out hout
    simp only [greedyLoop] at hout
    by_cases hcond : combined_reflectivity (sel.map Prod.fst) < t ∧ rem ≠ []
    · rw [if_pos hcond] at hout
      cases hfb : findBest sel (combined_reflectivity (sel.map Prod.fst)) rem with
      | none =>
        rw [hfb] at hout
        subst hout
        exact ⟨⟨rem, List.Perm.refl _⟩, rfl, hm⟩
      | some ic =>
        obtain ⟨i, c⟩ := ic
        rw [hfb] at hout
        have hm' : m + c.2 = ((sel ++ [c]).map Prod.snd).sum := by
          simp [hm]
        obtain ⟨⟨rest, hperm⟩, hR, hmass⟩ :=
          ih (rem.eraseIdx i) (sel ++ [c]) (m + c.2) hm' out hout
        refine ⟨⟨rest, ?_⟩, hR, hmass⟩
        have hget : rem[i]? = some c := findBest_mem _ _ _ _ _ hfb
        have hstep : List.Perm (sel ++ [c] ++ rem.eraseIdx i) (sel ++ rem) := by
          have h1 : sel ++ [c] ++ rem.eraseIdx i = sel ++ (c :: rem.eraseIdx i) := by simp
          rw [h1]
          exact List.Perm.append_left sel (cons_eraseIdx_perm rem i c hget)
        exact hperm.trans hstep
    · rw [if_neg hcond] at hout
      subst hout
      exact ⟨⟨rem, List.Perm.refl _⟩, rfl, hm⟩

/-- Unfolding of `optimize_reflector_greedy` in terms of the loop output. -/
theorem greedy_eq (t : ℚ) (cands : List Candidate) (p : Option PowerOption) :
    optimize_reflector_greedy t cands p =
      if t ≤ (greedyLoop t (greedySorted cands).length (greedySorted cands) [] 0 0).2.1 then
        some { total_areal_mass_kg_m2 :=
                 applyPower p (greedyLoop t (greedySorted cands).length
                   (greedySorted cands) [] 0 0).2.2
               achieved_reflectivity :=
                 (greedyLoop t (greedySorted cands).length (greedySorted cands) [] 0 0).2.1
               layers_used :=
                 (greedyLoop t (greedySorted cands).length (greedySorted cands) [] 0 0).1.length
               selected_layers :=
                 (greedyLoop t (greedySorted cands).length (greedySorted cands) [] 0 0).1 }
      else none := rfl

/-- The greedy loop output, from the optimizer's entry point: the selection
is a sub-permutation of the candidate pool, and the reported reflectivity
and mass are those of the selection. -/
theorem greedy_out_spec (t : ℚ) (cands : List Candidate)
    (out : List Candidate × ℚ × ℚ)
    (hout : greedyLoop t (greedySorted cands).length (greedySorted cands) [] 0 0 = out) :
    List.Subperm out.1 cands ∧
    out.2.1 = combined_reflectivity (out.1.map Prod.fst) ∧
    out.2.2 = (out.1.map Prod.snd).sum := by
  have h0 : (0 : ℚ) = combined_reflectivity (([] : List Candidate).map Prod.fst) := by
    simp [combined_nil]
  rw [show (0 : ℚ) = combined_reflectivity (([] : List Candidate).map Prod.fst) from h0] at hout
  obtain ⟨⟨rest, hperm⟩, hR, hmass⟩ :=
    greedyLoop_spec t (greedySorted cands).length (greedySorted cands) [] 0 (by simp) out hout
  refine ⟨?_, hR, hmass⟩
  have h1 : List.Sublist out.1 (out.1 ++ rest) := List.sublist_append_left _ _
  have h2 : List.Perm (out.1 ++ rest) (greedySorted cands) := by
    simpa using hperm
  have h3 : List.Perm (greedySorted cands) cands := List.perm_insertionSort _ cands
  exact h1.subperm.trans ((h2.trans h3).subperm)

/-! ### Power-option scaling -/

theorem applyPower_zero (p : Option PowerOption) : applyPower p 0 = 0 := by
  cases p with
  | none => rfl
  | some q => simp [applyPower, PowerOption.optimize_mass]

theorem mkSol_some_scale (f : ℚ) (sub : List Candidate) :
    mkSol (some ⟨f⟩) sub = scaleSol f (mkSol none sub) := by
  simp [mkSol, scaleSol, subMass, applyPower, PowerOption.optimize_mass]

theorem bruteUpdate_scale (t f : ℚ) (hf : f < 1) (best : Option Solution)
    (sub : List Candidate) :
    bruteUpdate t (some ⟨f⟩) (best.map (scaleSol f)) sub =
      (bruteUpdate t none best sub).map (scaleSol f) := by
  have h1f : (0 : ℚ) < 1 - f := by linarith
  have hbeq : beatsBest (best.map (scaleSol f)) (subMass (some ⟨f⟩) sub) =
      beatsBest best (subMass none sub) := by
    cases best with
    | none => rfl
    | some b =>
      simp only [Option.map_some', beatsBest, scaleSol, subMass, applyPower,
        PowerOption.optimize_mass]
      exact decide_eq_decide.2 (mul_lt_mul_right h1f)
  unfold bruteUpdate
  rw [hbeq]
  split_ifs with hc
  · rw [mkSol_some_scale]
    rfl
  · rfl

theorem bruteFold_scale (t f : ℚ) (hf : f < 1) :
    ∀ (L : List (List Candidate)) (best : Option Solution),
    L.foldl (bruteUpdate t (some ⟨f⟩)) (best.map (scaleSol f)) =
      (L.foldl (bruteUpdate t none) best).map (scaleSol f) := by
  intro L
  induction L with
  | nil => intro best; rfl
  | cons a L ih =>
    intro best
    rw [List.foldl_cons, List.foldl_cons, bruteUpdate_scale t f hf, ih]

theorem bruteforce_scale (t : ℚ) (cands : List Candidate) (ml : Option ℕ)
    (f : ℚ) (hf : f < 1) :
    optimize_reflector_bruteforce t cands ml (some ⟨f⟩) =
      (optimize_reflector_bruteforce t cands ml none).map (scaleSol f) := by
  unfold optimize_reflector_bruteforce
  have h0 : (none : Option Solution) = (none : Option Solution).map (scaleSol f) := rfl
  rw [h0, bruteFold_scale t f hf]
  rfl

theorem greedy_scale (t : ℚ) (cands : List Candidate) (f : ℚ) :
    optimize_reflector_greedy t cands (some ⟨f⟩) =
      (optimize_reflector_greedy t cands none).map (scaleSol f) := by
  rw [greedy_eq, greedy_eq]
  by_cases hc : t ≤ (greedyLoop t (greedySorted cands).length (greedySorted cands) [] 0 0).2.1
  · rw [if_pos hc, if_pos hc]
    simp [Option.map_some', scaleSol, applyPower, PowerOption.optimize_mass]
  · rw [if_neg hc, if_neg hc]
    rfl

/-! ### Claim theorems -/

/-- C8: for reflectivities in [0,1), inserting an extra reflectivity `r` in
[0,1) at any position never decreases `combined_reflectivity`, and strictly
increases it when `r > 0` and the original value is below 1. -/
theorem claim_C8_combined_monotone_insertion (l₁ l₂ : List ℚ) (r : ℚ)
    (hl : ∀ x ∈ l₁ ++ l₂, 0 ≤ x ∧ x < 1) (hr : 0 ≤ r ∧ r < 1) :
    combined_reflectivity (l₁ ++ l₂) ≤ combined_reflectivity (l₁ ++ r :: l₂) ∧
    (0 < r → combined_reflectivity (l₁ ++ l₂) < 1 →
      combined_reflectivity (l₁ ++ l₂) < combined_reflectivity (l₁ ++ r :: l₂)) := by
  have hpos : 0 < ((l₁ ++ l₂).map (fun x => 1 - x)).prod := by
    apply List.prod_pos
    intro y hy
    obtain ⟨x, hx, rfl⟩ := List.mem_map.1 hy
    have := (hl x hx).2
    linarith
  have e2 : combined_reflectivity (l₁ ++ r :: l₂) =
      1 - (1 - r) * ((l₁ ++ l₂).map (fun x => 1 - x)).prod := by
    rw [combined_eq]
    simp only [List.map_append, List.prod_append, List.map_cons, List.prod_cons]
    ring
  rw [combined_eq (l₁ ++ l₂), e2]
  constructor
  · nlinarith [mul_nonneg hr.1 (le_of_lt hpos)]
  · intro hrpos _
    nlinarith [mul_pos hrpos hpos]

/-- C8 witness: the monotonicity statement instantiated at the concrete
stack `[0.5] ++ [1/3]` with inserted reflectivity `1/4`. -/
theorem claim_C8_witness :
    (∀ x ∈ [(1/2 : ℚ)] ++ [(1/3 : ℚ)], 0 ≤ x ∧ x < 1) ∧
    ((0 : ℚ) ≤ 1/4 ∧ (1/4 : ℚ) < 1) ∧
    (combined_reflectivity ([(1/2 : ℚ)] ++ [(1/3 : ℚ)]) ≤
       combined_reflectivity ([(1/2 : ℚ)] ++ (1/4 : ℚ) :: [(1/3 : ℚ)]) ∧
     (0 < (1/4 : ℚ) → combined_reflectivity ([(1/2 : ℚ)] ++ [(1/3 : ℚ)]) < 1 →
       combined_reflectivity ([(1/2 : ℚ)] ++ [(1/3 : ℚ)]) <
         combined_reflectivity ([(1/2 : ℚ)] ++ (1/4 : ℚ) :: [(1/3 : ℚ)]))) :=
  ⟨by norm_num, by norm_num,
   claim_C8_combined_monotone_insertion [(1/2 : ℚ)] [(1/3 : ℚ)] (1/4)
     (by norm_num) (by norm_num)⟩

/-- C9: `combined_reflectivity` of the empty sequence is exactly 0, and on a
sequence of reflectivities each in [0,1) it equals `1 − Π(1 − r_i)`, a value
in [0,1). -/
theorem claim_C9_combined_empty_and_range (l : List ℚ)
    (hl : ∀ x ∈ l, 0 ≤ x ∧ x < 1) :
    combined_reflectivity [] = 0 ∧
    combined_reflectivity l = 1 - (l.map (fun r => 1 - r)).prod ∧
    0 ≤ combined_reflectivity l ∧ combined_reflectivity l < 1 := by
  refine ⟨combined_nil, combined_eq l, ?_, ?_⟩
  · exact combined_nonneg l (fun x hx => ⟨(hl x hx).1, le_of_lt (hl x hx).2⟩)
  · exact combined_lt_one l (fun x hx => (hl x hx).2)

/-- C9 witness: the value/range statement instantiated at the stack
`[1/2, 9/10]`. -/
theorem claim_C9_witness :
    (∀ x ∈ [(1/2 : ℚ), (9/10 : ℚ)], 0 ≤ x ∧ x < 1) ∧
    (combined_reflectivity [] = 0 ∧
     combined_reflectivity [(1/2 : ℚ), (9/10 : ℚ)] =
       1 - ([(1/2 : ℚ), (9/10 : ℚ)].map (fun r => 1 - r)).prod ∧
     0 ≤ combined_reflectivity [(1/2 : ℚ), (9/10 : ℚ)] ∧
     combined_reflectivity [(1/2 : ℚ), (9/10 : ℚ)] < 1) :=
  ⟨by norm_num, claim_C9_combined_empty_and_range [(1/2 : ℚ), (9/10 : ℚ)] (by norm_num)⟩

/-- C10: with a non-positive target the greedy selection loop never runs, and
the function returns a zero-layer, zero-mass Solution (not the Infeasible
`none`), for every candidate list and power option. -/
theorem claim_C10_greedy_nonpositive_target (t : ℚ) (cands : List Candidate)
    (p : Option PowerOption) (ht : t ≤ 0) :
    optimize_reflector_greedy t cands p =
      some { total_areal_mass_kg_m2 := 0, achieved_reflectivity := 0,
             layers_used := 0, selected_layers := [] } := by
  rw [greedy_eq]
  have hloop : greedyLoop t (greedySorted cands).length (greedySorted cands) [] 0 0 =
      ([], 0, 0) := by
    cases hn : (greedySorted cands).length with
    | zero => simp [greedyLoop]
    | succ n =>
      simp only [greedyLoop]
      rw [if_neg]
      intro hcond
      exact absurd hcond.1 (not_lt.2 ht)
  rw [hloop]
  rw [if_pos ht]
  simp [applyPower_zero]

/-- C10 witness: target 0 with one positive-mass candidate yields the empty
zero-mass Solution. -/
theorem claim_C10_witness :
    ((0 : ℚ) ≤ 0) ∧
    optimize_reflector_greedy 0 [((1/2 : ℚ), (1 : ℚ))] none =
      some { total_areal_mass_kg_m2 := 0, achieved_reflectivity := 0,
             layers_used := 0, selected_layers := [] } :=
  ⟨le_refl 0, claim_C10_greedy_nonpositive_target 0 [((1/2 : ℚ), (1 : ℚ))] none (le_refl 0)⟩

/-- C2 (code bug, failing input): on candidates `[(1/2, 0), (1/2, 1)]` with
target `7/10`, the greedy optimizer selects the positive-mass candidate
`(1/2, 1)` FIRST and the zero-mass reflective candidate `(1/2, 0)` only
second — the ranking loop maps a zero-mass candidate to ratio 0, the lowest
possible priority, although the pre-sort key treats it as infinite priority.
This contradicts the required "zero-mass candidates are selected before any
positive-mass candidate". (No division error occurs; the selection-order
half of the claim is what fails.) -/
theorem claim_C2_zero_mass_selected_second :
    optimize_reflector_greedy (7/10) [((1/2 : ℚ), (0 : ℚ)), ((1/2 : ℚ), (1 : ℚ))] none =
      some { total_areal_mass_kg_m2 := 1
             achieved_reflectivity := 3/4
             layers_used := 2
             selected_layers := [((1/2 : ℚ), (1 : ℚ)), ((1/2 : ℚ), (0 : ℚ))] } := by
  norm_num [optimize_reflector_greedy, greedySorted, List.insertionSort, List.orderedInsert,
    greedyKey, greedyLoop, findBest, List.enum, List.enumFrom, ratioOf, combined_eq,
    applyPower, Solution.mk.injEq, List.cons_ne_nil]

/-- C3 (code bug, failing input): neither optimizer validates its inputs.
On the malformed candidate `(6/5, 1/1000)` (reflectivity 1.2 ∉ [0,1)) with
target 1/2, both optimizers run their full search and return a Solution
whose achieved reflectivity is 6/5 > 1; no InvalidInput error is signaled
and no error path exists in the code. -/
theorem claim_C3_no_validation_search_runs :
    optimize_reflector_bruteforce (1/2) [((6/5 : ℚ), (1/1000 : ℚ))] none none =
      some { total_areal_mass_kg_m2 := 1/1000, achieved_reflectivity := 6/5,
             layers_used := 1, selected_layers := [((6/5 : ℚ), (1/1000 : ℚ))] } ∧
    optimize_reflector_greedy (1/2) [((6/5 : ℚ), (1/1000 : ℚ))] none =
      some { total_areal_mass_kg_m2 := 1/1000, achieved_reflectivity := 6/5,
             layers_used := 1, selected_layers := [((6/5 : ℚ), (1/1000 : ℚ))] } ∧
    ¬ ((6/5 : ℚ) < 1) := by
  refine ⟨?_, ?_, by norm_num⟩
  · norm_num [optimize_reflector_bruteforce, bruteSubsets, bruteSizeBound,
      List.range_succ, List.sublistsLen_succ_cons, List.sublistsLen_succ_nil,
      bruteUpdate, beatsBest, mkSol, subR, subMass, combined_eq,
      applyPower, Solution.mk.injEq, List.cons_ne_nil]
  · norm_num [optimize_reflector_greedy, greedySorted, List.insertionSort, List.orderedInsert,
      greedyKey, greedyLoop, findBest, List.enum, List.enumFrom, ratioOf, combined_eq,
      applyPower, Solution.mk.injEq, List.cons_ne_nil]

/-- C1: whenever the brute-force optimizer (no `max_layers`) returns a
Solution for a target in (0,1] over well-formed candidates, the selected
subset is a nonempty subset of the candidates, meets the target, carries
exactly its own reflectivity and (discounted) mass, and its mass is minimal
among all subsets of the candidates that meet the target. -/
theorem claim_C1_bruteforce_exact_minimum (t : ℚ) (cands : List Candidate)
    (p : Option PowerOption) (s : Solution)
    (ht : 0 < t ∧ t ≤ 1)
    (hw : ∀ c ∈ cands, (0 ≤ c.1 ∧ c.1 < 1) ∧ 0 ≤ c.2)
    (hs : optimize_reflector_bruteforce t cands none p = some s) :
    List.Sublist s.selected_layers cands ∧ s.selected_layers ≠ [] ∧
    s.achieved_reflectivity = combined_reflectivity (s.selected_layers.map Prod.fst) ∧
    t ≤ s.achieved_reflectivity ∧
    s.total_areal_mass_kg_m2 = applyPower p ((s.selected_layers.map Prod.snd).sum) ∧
    ∀ sub, List.Sublist sub cands → t ≤ combined_reflectivity (sub.map Prod.fst) →
      s.total_areal_mass_kg_m2 ≤ applyPower p ((sub.map Prod.snd).sum) := by
  obtain ⟨sub, hmem, hfeas, hsEq⟩ := bruteforce_some_spec t cands none p s hs
  obtain ⟨hsl, hne, _⟩ := (mem_bruteSubsets cands none sub).1 hmem
  subst hsEq
  refine ⟨hsl, hne, rfl, hfeas, rfl, ?_⟩
  intro sub' hsl' hfeas'
  rcases eq_or_ne sub' [] with rfl | hne'
  · exfalso
    rw [List.map_nil, combined_nil] at hfeas'
    linarith [ht.1]
  · have hmem' : sub' ∈ bruteSubsets cands none := by
      rw [mem_bruteSubsets]
      exact ⟨hsl', hne', by simpa [bruteSizeBound] using hsl'.length_le⟩
    exact bruteforce_min t cands none p _ hs sub' hmem' hfeas'

/-- C1 witness: the exactness statement instantiated at the spec's literal
candidate set with target 0.98; the returned optimum is the two-layer stack
`[(0.91, 0.00015), (0.88, 0.00006)]` of mass 0.00021 and reflectivity
0.9892. -/
theorem claim_C1_witness :
    (((0 : ℚ) < 98/100 ∧ (98/100 : ℚ) ≤ 1) ∧
     (∀ c ∈ [((91/100 : ℚ), (15/100000 : ℚ)), ((88/100 : ℚ), (6/100000 : ℚ)),
             ((12/100 : ℚ), (8/10000 : ℚ)), ((60/100 : ℚ), (12/1000 : ℚ))],
        (0 ≤ c.1 ∧ c.1 < 1) ∧ 0 ≤ c.2) ∧
     optimize_reflector_bruteforce (98/100)
       [((91/100 : ℚ), (15/100000 : ℚ)), ((88/100 : ℚ), (6/100000 : ℚ)),
        ((12/100 : ℚ), (8/10000 : ℚ)), ((60/100 : ℚ), (12/1000 : ℚ))] none none =
       some { total_areal_mass_kg_m2 := 21/100000
              achieved_reflectivity := 2473/2500
              layers_used := 2
              selected_layers := [((91/100 : ℚ), (15/100000 : ℚ)),
                                  ((88/100 : ℚ), (6/100000 : ℚ))] }) ∧
    (List.Sublist ({ total_areal_mass_kg_m2 := 21/100000
                     achieved_reflectivity := 2473/2500
                     layers_used := 2
                     selected_layers := [((91/100 : ℚ), (15/100000 : ℚ)),
                                         ((88/100 : ℚ), (6/100000 : ℚ))] : Solution}).selected_layers
       [((91/100 : ℚ), (15/100000 : ℚ)), ((88/100 : ℚ), (6/100000 : ℚ)),
        ((12/100 : ℚ), (8/10000 : ℚ)), ((60/100 : ℚ), (12/1000 : ℚ))] ∧
     ({ total_areal_mass_kg_m2 := 21/100000
        achieved_reflectivity := 2473/2500
        layers_used := 2
        selected_layers := [((91/100 : ℚ), (15/100000 : ℚ)),
                            ((88/100 : ℚ), (6/100000 : ℚ))] : Solution}).selected_layers ≠ [] ∧
     ({ total_areal_mass_kg_m2 := 21/100000
        achieved_reflectivity := 2473/2500
        layers_used := 2
        selected_layers := [((91/100 : ℚ), (15/100000 : ℚ)),
                            ((88/100 : ℚ), (6/100000 : ℚ))] : Solution}).achieved_reflectivity =
       combined_reflectivity
         (({ total_areal_mass_kg_m2 := 21/100000
             achieved_reflectivity := 2473/2500
             layers_used := 2
             selected_layers := [((91/100 : ℚ), (15/100000 : ℚ)),
                                 ((88/100 : ℚ), (6/100000 : ℚ))] : Solution}).selected_layers.map Prod.fst) ∧
     (98/100 : ℚ) ≤ ({ total_areal_mass_kg_m2 := 21/100000
                       achieved_reflectivity := 2473/2500
                       layers_used := 2
                       selected_layers := [((91/100 : ℚ), (15/100000 : ℚ)),
                                           ((88/100 : ℚ), (6/100000 : ℚ))] : Solution}).achieved_reflectivity ∧
     ({ total_areal_mass_kg_m2 := 21/100000
        achieved_reflectivity := 2473/2500
        layers_used := 2
        selected_layers := [((91/100 : ℚ), (15/100000 : ℚ)),
                            ((88/100 : ℚ), (6/100000 : ℚ))] : Solution}).total_areal_mass_kg_m2 =
       applyPower none
         ((({ total_areal_mass_kg_m2 := 21/100000
              achieved_reflectivity := 2473/2500
              layers_used := 2
              selected_layers := [((91/100 : ℚ), (15/100000 : ℚ)),
                                  ((88/100 : ℚ), (6/100000 : ℚ))] : Solution}).selected_layers.map Prod.snd).sum) ∧
     ∀ sub, List.Sublist sub
         [((91/100 : ℚ), (15/100000 : ℚ)), ((88/100 : ℚ), (6/100000 : ℚ)),
          ((12/100 : ℚ), (8/10000 : ℚ)), ((60/100 : ℚ), (12/1000 : ℚ))] →
       (98/100 : ℚ) ≤ combined_reflectivity (sub.map Prod.fst) →
       ({ total_areal_mass_kg_m2 := 21/100000
          achieved_reflectivity := 2473/2500
          layers_used := 2
          selected_layers := [((91/100 : ℚ), (15/100000 : ℚ)),
                              ((88/100 : ℚ), (6/100000 : ℚ))] : Solution}).total_areal_mass_kg_m2 ≤
         applyPower none ((sub.map Prod.snd).sum)) :=
  ⟨⟨by norm_num,
    by norm_num,
    by norm_num [optimize_reflector_bruteforce, bruteSubsets, bruteSizeBound,
      List.range_succ, List.sublistsLen_succ_cons, List.sublistsLen_succ_nil,
      bruteUpdate, beatsBest, mkSol, subR, subMass, combined_eq,
      applyPower, Solution.mk.injEq, List.cons_ne_nil]⟩,
   claim_C1_bruteforce_exact_minimum (98/100)
     [((91/100 : ℚ), (15/100000 : ℚ)), ((88/100 : ℚ), (6/100000 : ℚ)),
      ((12/100 : ℚ), (8/10000 : ℚ)), ((60/100 : ℚ), (12/1000 : ℚ))] none
     { total_areal_mass_kg_m2 := 21/100000
       achieved_reflectivity := 2473/2500
       layers_used := 2
       selected_layers := [((91/100 : ℚ), (15/100000 : ℚ)),
                           ((88/100 : ℚ), (6/100000 : ℚ))] }
     (by norm_num)
     (by norm_num)
     (by norm_num [optimize_reflector_bruteforce, bruteSubsets, bruteSizeBound,
       List.range_succ, List.sublistsLen_succ_cons, List.sublistsLen_succ_nil,
       bruteUpdate, beatsBest, mkSol, subR, subMass, combined_eq,
       applyPower, Solution.mk.injEq, List.cons_ne_nil])⟩

/-- C4: when even the full candidate set's combined reflectivity is strictly
below the target, both optimizers return `none` (Infeasible). -/
theorem claim_C4_infeasible_both_none (t : ℚ) (cands : List Candidate)
    (p : Option PowerOption)
    (hw : ∀ c ∈ cands, (0 ≤ c.1 ∧ c.1 < 1) ∧ 0 ≤ c.2)
    (hfull : combined_reflectivity (cands.map Prod.fst) < t) :
    optimize_reflector_bruteforce t cands none p = none ∧
    optimize_reflector_greedy t cands p = none := by
  have hbounds : ∀ x ∈ cands.map Prod.fst, 0 ≤ x ∧ x ≤ 1 := by
    intro x hx
    obtain ⟨c, hc, rfl⟩ := List.mem_map.1 hx
    exact ⟨(hw c hc).1.1, le_of_lt (hw c hc).1.2⟩
  constructor
  · rw [bruteforce_none_iff]
    intro sub hmem
    obtain ⟨hsl, _, _⟩ := (mem_bruteSubsets cands none sub).1 hmem
    have hmono := combined_sublist_mono _ _ (hsl.map Prod.fst) hbounds
    exact lt_of_le_of_lt hmono hfull
  · obtain ⟨hsp, hR, _⟩ := greedy_out_spec t cands
      (greedyLoop t (greedySorted cands).length (greedySorted cands) [] 0 0) rfl
    obtain ⟨l, hlp, hls⟩ := hsp
    have h1 : combined_reflectivity
        ((greedyLoop t (greedySorted cands).length (greedySorted cands) [] 0 0).1.map Prod.fst) =
        combined_reflectivity (l.map Prod.fst) :=
      (combined_perm _ _ (hlp.map Prod.fst)).symm
    have h2 : combined_reflectivity (l.map Prod.fst) ≤
        combined_reflectivity (cands.map Prod.fst) :=
      combined_sublist_mono _ _ (hls.map Prod.fst) hbounds
    rw [greedy_eq, if_neg]
    rw [hR, h1]
    exact not_le.2 (lt_of_le_of_lt h2 hfull)

/-- C4 witness: one candidate of reflectivity 1/2 cannot meet target 9/10;
both optimizers report Infeasible. -/
theorem claim_C4_witness :
    ((∀ c ∈ [((1/2 : ℚ), (1 : ℚ))], (0 ≤ c.1 ∧ c.1 < 1) ∧ 0 ≤ c.2) ∧
     combined_reflectivity ([((1/2 : ℚ), (1 : ℚ))].map Prod.fst) < 9/10) ∧
    (optimize_reflector_bruteforce (9/10) [((1/2 : ℚ), (1 : ℚ))] none none = none ∧
     optimize_reflector_greedy (9/10) [((1/2 : ℚ), (1 : ℚ))] none = none) :=
  ⟨⟨by norm_num, by norm_num [combined_eq]⟩,
   claim_C4_infeasible_both_none (9/10) [((1/2 : ℚ), (1 : ℚ))] none
     (by norm_num) (by norm_num [combined_eq])⟩

/-- C7: with a `max_layers` cap `k ≥ 1`, every brute-force Solution uses
between 1 and `k` layers (and records its own selection's length); with
`k = 1` every Solution has exactly one layer, and if no single candidate
meets the target alone the result is Infeasible. -/
theorem claim_C7_max_layers_cap (t : ℚ) (cands : List Candidate)
    (p : Option PowerOption) (k : ℕ) (hk : 1 ≤ k) :
    (∀ s, optimize_reflector_bruteforce t cands (some k) p = some s →
       s.layers_used = s.selected_layers.length ∧ 1 ≤ s.layers_used ∧ s.layers_used ≤ k) ∧
    (∀ s, optimize_reflector_bruteforce t cands (some 1) p = some s →
       s.layers_used = 1) ∧
    ((∀ c ∈ cands, combined_reflectivity [c.1] < t) →
      optimize_reflector_bruteforce t cands (some 1) p = none) := by
  refine ⟨?_, ?_, ?_⟩
  · intro s hs
    obtain ⟨sub, hmem, _, rfl⟩ := bruteforce_some_spec t cands (some k) p s hs
    obtain ⟨_, hne, hlen⟩ := (mem_bruteSubsets _ _ _).1 hmem
    have h1 : 0 < sub.length := List.length_pos.2 hne
    have h2 : sub.length ≤ min k cands.length := by
      simpa [bruteSizeBound] using hlen
    have h3 : sub.length ≤ k := le_trans h2 (min_le_left _ _)
    exact ⟨rfl, h1, h3⟩
  · intro s hs
    obtain ⟨sub, hmem, _, rfl⟩ := bruteforce_some_spec t cands (some 1) p s hs
    obtain ⟨_, hne, hlen⟩ := (mem_bruteSubsets _ _ _).1 hmem
    have h1 : 0 < sub.length := List.length_pos.2 hne
    have h2 : sub.length ≤ 1 :=
      le_trans (by simpa [bruteSizeBound] using hlen) (min_le_left _ _)
    have h3 : sub.length = 1 := le_antisymm h2 h1
    simpa [mkSol] using h3
  · intro hall
    rw [bruteforce_none_iff]
    intro sub hmem
    obtain ⟨hsl, hne, hlen⟩ := (mem_bruteSubsets _ _ _).1 hmem
    have h1 : 0 < sub.length := List.length_pos.2 hne
    have h2 : sub.length ≤ 1 :=
      le_trans (by simpa [bruteSizeBound] using hlen) (min_le_left _ _)
    obtain ⟨c, rfl⟩ := List.length_eq_one.1 (le_antisymm h2 h1)
    have hc : c ∈ cands := hsl.subset (List.mem_singleton_self c)
    simpa [subR] using hall c hc

/-- C7 witness: `max_layers = 1` over one candidate meeting target 1/2 by
itself yields a one-layer solution; the cap/1-layer statement applies. -/
theorem claim_C7_witness :
    (1 ≤ 1) ∧
    ((∀ s, optimize_reflector_bruteforce (1/2) [((3/4 : ℚ), (1 : ℚ))] (some 1) none = some s →
        s.layers_used = s.selected_layers.length ∧ 1 ≤ s.layers_used ∧ s.layers_used ≤ 1) ∧
     (∀ s, optimize_reflector_bruteforce (1/2) [((3/4 : ℚ), (1 : ℚ))] (some 1) none = some s →
        s.layers_used = 1) ∧
     ((∀ c ∈ [((3/4 : ℚ), (1 : ℚ))], combined_reflectivity [c.1] < 1/2) →
       optimize_reflector_bruteforce (1/2) [((3/4 : ℚ), (1 : ℚ))] (some 1) none = none)) :=
  ⟨le_refl 1, claim_C7_max_layers_cap (1/2) [((3/4 : ℚ), (1 : ℚ))] none 1 (le_refl 1)⟩

/-- C6 (counterexample): the claim fails as stated "for every target".  With
target 0 and the single positive-mass candidate `(1/2, 1)`, both optimizers
return a Solution, but the brute-force mass is 1 (it only enumerates
non-empty subsets) while greedy's mass is 0 (its loop never runs and it
reports the empty selection) — so brute-force mass ≤ greedy mass is false. -/
theorem claim_C6_counterexample :
    optimize_reflector_bruteforce 0 [((1/2 : ℚ), (1 : ℚ))] none none =
      some { total_areal_mass_kg_m2 := 1, achieved_reflectivity := 1/2,
             layers_used := 1, selected_layers := [((1/2 : ℚ), (1 : ℚ))] } ∧
    optimize_reflector_greedy 0 [((1/2 : ℚ), (1 : ℚ))] none =
      some { total_areal_mass_kg_m2 := 0, achieved_reflectivity := 0,
             layers_used := 0, selected_layers := [] } ∧
    ¬ ((1 : ℚ) ≤ 0) := by
  refine ⟨?_, ?_, by norm_num⟩
  · norm_num [optimize_reflector_bruteforce, bruteSubsets, bruteSizeBound,
      List.range_succ, List.sublistsLen_succ_cons, List.sublistsLen_succ_nil,
      bruteUpdate, beatsBest, mkSol, subR, subMass, combined_eq,
      applyPower, Solution.mk.injEq, List.cons_ne_nil]
  · norm_num [optimize_reflector_greedy, greedySorted, List.insertionSort, List.orderedInsert,
      greedyKey, greedyLoop, findBest, List.enum, List.enumFrom, ratioOf, combined_eq,
      applyPower, Solution.mk.injEq, List.cons_ne_nil]

/-- C6 (amended: restricted to targets > 0, which the counterexample forces):
for every target > 0 and well-formed candidate list, whenever both the
brute-force optimizer (no cap) and the greedy optimizer return a Solution
under the same power option, the brute-force total mass is ≤ the greedy
total mass. -/
theorem claim_C6_exact_le_greedy_mass (t : ℚ) (cands : List Candidate)
    (p : Option PowerOption) (sb sg : Solution) (ht : 0 < t)
    (hw : ∀ c ∈ cands, (0 ≤ c.1 ∧ c.1 < 1) ∧ 0 ≤ c.2)
    (hb : optimize_reflector_bruteforce t cands none p = some sb)
    (hg : optimize_reflector_greedy t cands p = some sg) :
    sb.total_areal_mass_kg_m2 ≤ sg.total_areal_mass_kg_m2 := by
  obtain ⟨hsp, hR, hm⟩ := greedy_out_spec t cands
    (greedyLoop t (greedySorted cands).length (greedySorted cands) [] 0 0) rfl
  rw [greedy_eq] at hg
  by_cases hc : t ≤ (greedyLoop t (greedySorted cands).length (greedySorted cands) [] 0 0).2.1
  case neg => rw [if_neg hc] at hg; cases hg
  rw [if_pos hc] at hg
  have hsg := (Option.some_inj.1 hg).symm
  subst hsg
  obtain ⟨l, hlp, hls⟩ := hsp
  have hLne : (greedyLoop t (greedySorted cands).length (greedySorted cands) [] 0 0).1 ≠ [] := by
    intro hnil
    rw [hR, hnil] at hc
    rw [List.map_nil, combined_nil] at hc
    linarith
  have hlne : l ≠ [] := by
    intro hnil
    subst hnil
    exact hLne (List.perm_nil.1 hlp.symm)
  have hfeasl : t ≤ subR l := by
    have he : combined_reflectivity (l.map Prod.fst) =
        combined_reflectivity
          ((greedyLoop t (greedySorted cands).length (greedySorted cands) [] 0 0).1.map Prod.fst) :=
      combined_perm _ _ (hlp.map Prod.fst)
    rw [hR] at hc
    unfold subR
    rw [he]
    exact hc
  have hmem : l ∈ bruteSubsets cands none := by
    rw [mem_bruteSubsets]
    exact ⟨hls, hlne, by simpa [bruteSizeBound] using hls.length_le⟩
  have hmin := bruteforce_min t cands none p sb hb l hmem hfeasl
  have hsum : (l.map Prod.snd).sum =
      ((greedyLoop t (greedySorted cands).length (greedySorted cands) [] 0 0).1.map Prod.snd).sum :=
    (hlp.map Prod.snd).sum_eq
  calc sb.total_areal_mass_kg_m2
      ≤ subMass p l := hmin
    _ = applyPower p ((greedyLoop t (greedySorted cands).length
          (greedySorted cands) [] 0 0).1.map Prod.snd).sum := by
          unfold subMass
          rw [hsum]
    _ = applyPower p (greedyLoop t (greedySorted cands).length
          (greedySorted cands) [] 0 0).2.2 := by rw [hm]

/-- C6 witness: one candidate `(3/4, 2)` and target 1/2 — both optimizers
return the same one-layer Solution of mass 2, and 2 ≤ 2. -/
theorem claim_C6_witness :
    ((0 : ℚ) < 1/2 ∧
     optimize_reflector_bruteforce (1/2) [((3/4 : ℚ), (2 : ℚ))] none none =
       some { total_areal_mass_kg_m2 := 2, achieved_reflectivity := 3/4,
              layers_used := 1, selected_layers := [((3/4 : ℚ), (2 : ℚ))] } ∧
     optimize_reflector_greedy (1/2) [((3/4 : ℚ), (2 : ℚ))] none =
       some { total_areal_mass_kg_m2 := 2, achieved_reflectivity := 3/4,
              layers_used := 1, selected_layers := [((3/4 : ℚ), (2 : ℚ))] }) ∧
    ({ total_areal_mass_kg_m2 := 2, achieved_reflectivity := 3/4,
       layers_used := 1, selected_layers := [((3/4 : ℚ), (2 : ℚ))] : Solution}).total_areal_mass_kg_m2 ≤
      ({ total_areal_mass_kg_m2 := 2, achieved_reflectivity := 3/4,
         layers_used := 1, selected_layers := [((3/4 : ℚ), (2 : ℚ))] : Solution}).total_areal_mass_kg_m2 :=
  ⟨⟨by norm_num,
    by norm_num [optimize_reflector_bruteforce, bruteSubsets, bruteSizeBound,
      List.range_succ, List.sublistsLen_succ_cons, List.sublistsLen_succ_nil,
      bruteUpdate, beatsBest, mkSol, subR, subMass, combined_eq,
      applyPower, Solution.mk.injEq, List.cons_ne_nil],
    by norm_num [optimize_reflector_greedy, greedySorted, List.insertionSort, List.orderedInsert,
      greedyKey, greedyLoop, findBest, List.enum, List.enumFrom, ratioOf, combined_eq,
      applyPower, Solution.mk.injEq, List.cons_ne_nil]⟩,
   claim_C6_exact_le_greedy_mass (1/2) [((3/4 : ℚ), (2 : ℚ))] none
     { total_areal_mass_kg_m2 := 2, achieved_reflectivity := 3/4,
       layers_used := 1, selected_layers := [((3/4 : ℚ), (2 : ℚ))] }
     { total_areal_mass_kg_m2 := 2, achieved_reflectivity := 3/4,
       layers_used := 1, selected_layers := [((3/4 : ℚ), (2 : ℚ))] }
     (by norm_num)
     (by norm_num)
     (by norm_num [optimize_reflector_bruteforce, bruteSubsets, bruteSizeBound,
       List.range_succ, List.sublistsLen_succ_cons, List.sublistsLen_succ_nil,
       bruteUpdate, beatsBest, mkSol, subR, subMass, combined_eq,
       applyPower, Solution.mk.injEq, List.cons_ne_nil])
     (by norm_num [optimize_reflector_greedy, greedySorted, List.insertionSort, List.orderedInsert,
       greedyKey, greedyLoop, findBest, List.enum, List.enumFrom, ratioOf, combined_eq,
       applyPower, Solution.mk.injEq, List.cons_ne_nil])⟩

/-- C5: a power option with mass reduction fraction `f ∈ [0,1)` changes
either optimizer's result only by scaling the reported total mass by exactly
`1 − f`: same Solution-vs-Infeasible outcome, same selected layer list, same
layer count, same achieved reflectivity. -/
theorem claim_C5_power_scaling (t : ℚ) (cands : List Candidate) (ml : Option ℕ)
    (f : ℚ) (hf : 0 ≤ f ∧ f < 1) :
    optimize_reflector_bruteforce t cands ml (some ⟨f⟩) =
      (optimize_reflector_bruteforce t cands ml none).map (scaleSol f) ∧
    optimize_reflector_greedy t cands (some ⟨f⟩) =
      (optimize_reflector_greedy t cands none).map (scaleSol f) ∧
    ∀ s : Solution,
      (scaleSol f s).achieved_reflectivity = s.achieved_reflectivity ∧
      (scaleSol f s).selected_layers = s.selected_layers ∧
      (scaleSol f s).layers_used = s.layers_used ∧
      (scaleSol f s).total_areal_mass_kg_m2 = s.total_areal_mass_kg_m2 * (1 - f) :=
  ⟨bruteforce_scale t cands ml f hf.2, greedy_scale t cands f,
   fun _ => ⟨rfl, rfl, rfl, rfl⟩⟩

/-- C5 witness: instantiated at `f = 3/40 = 0.075`, whose scale factor
`1 − f` is exactly `0.925`, on a concrete one-candidate search. -/
theorem claim_C5_witness :
    ((0 : ℚ) ≤ 3/40 ∧ (3/40 : ℚ) < 1) ∧
    (1 - (3/40 : ℚ) = 925/1000) ∧
    (optimize_reflector_bruteforce (1/2) [((3/4 : ℚ), (2 : ℚ))] none (some ⟨3/40⟩) =
       (optimize_reflector_bruteforce (1/2) [((3/4 : ℚ), (2 : ℚ))] none none).map (scaleSol (3/40)) ∧
     optimize_reflector_greedy (1/2) [((3/4 : ℚ), (2 : ℚ))] (some ⟨3/40⟩) =
       (optimize_reflector_greedy (1/2) [((3/4 : ℚ), (2 : ℚ))] none).map (scaleSol (3/40)) ∧
     ∀ s : Solution,
       (scaleSol (3/40) s).achieved_reflectivity = s.achieved_reflectivity ∧
       (scaleSol (3/40) s).selected_layers = s.selected_layers ∧
       (scaleSol (3/40) s).layers_used = s.layers_used ∧
       (scaleSol (3/40) s).total_areal_mass_kg_m2 = s.total_areal_mass_kg_m2 * (1 - 3/40)) :=
  ⟨by norm_num, by norm_num,
   claim_C5_power_scaling (1/2) [((3/4 : ℚ), (2 : ℚ))] none (3/40) (by norm_num)⟩

end ReflectorOptimizer
